import Mathlib

/-
Shallow embedding of `streamz/sinks.py`: the sink stage of a push-based
streaming dataflow graph.  The module defines a process-wide registry
`_global_sinks` (a Python `set`), a base class `Sink` whose constructor adds
the instance to the registry and whose `destroy` removes it, and four
concrete sinks:

  * `sink`             — apply a function to every element;
  * `sink_to_textfile` — write each element plus a terminator to a text file;
  * `to_websocket`     — lazily connect a websocket on first `update`;
  * `to_mqtt`          — lazily create an MQTT client on first `update` and
                         publish each element to a topic.

Sink instances are identified by natural numbers; the registry is a
`Finset Nat`.  External effects (connect / send / publish calls) are recorded
in explicit world states so that theorems can speak about how many times each
effect happened and in what order.  Fallible Python operations (a `set.remove`
of an absent element, a method call on `None`) are modelled with `Except` or
an explicit error component.
-/

set_option autoImplicit false

universe u v

/-! ## The sink registry (`_global_sinks`, a Python `set`) -/

/-- Python `set.add`: inserts the element; a no-op if already present. -/
def pySetAdd (r : Finset Nat) (s : Nat) : Finset Nat := insert s r

/-- Python `set.remove`: removes the element, raising `KeyError` when the
element is absent (Python's `set.remove` is not `set.discard`). -/
def pySetRemove (r : Finset Nat) (s : Nat) : Except String (Finset Nat) :=
  if s ∈ r then .ok (r.erase s) else .error "KeyError"

/-- `Sink.__init__`: after `super().__init__` the constructor runs
`_global_sinks.add(self)`.  Only the registry effect is modelled. -/
def Sink.initRegistry (r : Finset Nat) (s : Nat) : Finset Nat := pySetAdd r s

/-- `Sink.destroy`: after `super().destroy()` it runs
`_global_sinks.remove(self)`. -/
def Sink.destroyRegistry (r : Finset Nat) (s : Nat) : Except String (Finset Nat) :=
  pySetRemove r s

/-! ## `sink` (FunctionSink) -/

/-- Result of a Python call: either an awaitable (identified by a handle id)
or a plain value, matching the `gen.isawaitable(result)` test in
`sink.update`. -/
inductive PyResult (β : Type v) where
  | awaitable : Nat → PyResult β
  | value : β → PyResult β
  deriving DecidableEq

/-- What `sink.update` returns to the scheduler: the awaitable itself, or the
empty list `[]`. -/
inductive UpdateReturn (β : Type v) where
  | handle : Nat → UpdateReturn β
  | empty : UpdateReturn β
  deriving DecidableEq

/-- One invocation `func(x, *args, **kwargs)`: the leading positional
argument, the fixed positional arguments, and the fixed keyword arguments. -/
structure FuncCall (α : Type u) where
  leading : α
  args : List α
  kwargs : List (String × α)
  deriving DecidableEq

/-- The keyword split in `sink.__init__`:
`sig = set(inspect.signature(Stream).parameters)`;
`stream_kwargs = {k: v for (k, v) in kwargs.items() if k in sig}`;
`self.kwargs = {k: v for (k, v) in kwargs.items() if k not in sig}`.
`sig` is the list of parameter names of the `Stream` constructor (an external
collaborator), passed in here; the first component is routed to
`Stream.__init__`, the second is bound as call arguments of `func`. -/
def sink.splitKwargs {α : Type u} (sig : List String) (kwargs : List (String × α)) :
    List (String × α) × List (String × α) :=
  (kwargs.filter (fun kv => decide (kv.1 ∈ sig)),
   kwargs.filter (fun kv => decide (kv.1 ∉ sig)))

/-- `sink.update`: runs `result = self.func(x, *self.args, **self.kwargs)`,
appends the invocation to the call trace, and returns `result` when it is
awaitable, `[]` otherwise. -/
def sink.update {α : Type u} {β : Type v}
    (func : α → List α → List (String × α) → PyResult β)
    (args : List α) (kwargs : List (String × α)) (x : α)
    (trace : List (FuncCall α)) : UpdateReturn β × List (FuncCall α) :=
  let result := func x args kwargs
  let trace' := trace ++ [⟨x, args, kwargs⟩]
  match result with
  | .awaitable h => (.handle h, trace')
  | .value _ => (.empty, trace')

/-- Deliver a sequence of values to a `sink`, in order, threading the call
trace. -/
def sink.updateSeq {α : Type u} {β : Type v}
    (func : α → List α → List (String × α) → PyResult β)
    (args : List α) (kwargs : List (String × α)) :
    List α → List (FuncCall α) → List (FuncCall α)
  | [], trace => trace
  | x :: xs, trace => sink.updateSeq func args kwargs xs (sink.update func args kwargs x trace).2

/-! ## `sink_to_textfile` (TextFileSink) -/

/-- The `file` argument: a `str` path, or a pre-opened file-like object
(identified by its current buffer contents). -/
inductive FileArg where
  | str : String → FileArg
  | fileLike : String → FileArg
  deriving DecidableEq

/-- Python `open(file, mode=mode)` on a path whose current contents are
`existing`: append mode keeps the contents, write mode truncates. -/
def pyOpen (existing : String) (mode : String) : String :=
  if mode = "a" then existing else ""

/-- The sink state after `sink_to_textfile.__init__`: the terminator
`self._end` and the open handle `self._fp`, modelled by the handle's buffer
contents.  `self._fp = open(file, mode=mode) if isinstance(file, str) else
file`; defaults are `end="\n"` and `mode="a"`. -/
structure TextFileSink where
  _end : String
  _fp : String
  deriving DecidableEq

/-- `sink_to_textfile.__init__` (the handle resolution): a `str` path is
opened eagerly, here against the path's existing contents `existing`; a
file-like argument is used as given. -/
def sink_to_textfile.init (existing : String) (file : FileArg)
    (endArg : String := "\n") (mode : String := "a") : TextFileSink :=
  { _end := endArg
    _fp := match file with
      | .str _ => pyOpen existing mode
      | .fileLike buf => buf }

/-- `sink_to_textfile.update`: `self._fp.write(x + self._end)`, synchronous. -/
def sink_to_textfile.update (s : TextFileSink) (x : String) : TextFileSink :=
  { s with _fp := s._fp ++ x ++ s._end }

/-- Deliver a sequence of string values, in order. -/
def sink_to_textfile.updateSeq (s : TextFileSink) : List String → TextFileSink
  | [] => s
  | x :: xs => sink_to_textfile.updateSeq (sink_to_textfile.update s x) xs

/-! ## `to_websocket` (NetworkStreamSink)

`update` is an `async def`; its body has a suspension point at
`await websockets.connect(...)`.  The world records the connection attribute
`self.ws`, how many times `websockets.connect` was invoked, and every
`ws.send` call.  Connection ids are allocated sequentially, so the id of a
connection equals the number of connect attempts made before it. -/

structure WsWorld where
  ws : Option Nat
  connectAttempts : Nat
  sent : List (Nat × String)
  deriving DecidableEq

/-- The continuation state of one `to_websocket.update(x)` coroutine:
it is either about to run the `if self.ws is None` test, suspended at
`await websockets.connect`, or finished. -/
inductive WsTask where
  | start : String → WsTask
  | awaitingConnect : String → Nat → WsTask
  | doneT : WsTask
  deriving DecidableEq

/-- One cooperative step of an `update` coroutine.

`start x`: runs `if self.ws is None`.  When `self.ws` is `None` the coroutine
invokes `websockets.connect` (one connect attempt begins) and suspends at the
`await`; note `self.ws` is still `None` while suspended, since the assignment
happens only after the await resolves.  When `self.ws` is set, the coroutine
sends on it and finishes (the send suspension is irrelevant to connect
counting and is folded into the step).

`awaitingConnect x cid`: the connect resolved; `self.ws = <new connection>`
is assigned, then `await self.ws.send(x)` runs. -/
def wsStep (w : WsWorld) (t : WsTask) : WsWorld × WsTask :=
  match t with
  | .start x =>
      match w.ws with
      | none =>
          ({ w with connectAttempts := w.connectAttempts + 1 },
           .awaitingConnect x w.connectAttempts)
      | some cid => ({ w with sent := w.sent ++ [(cid, x)] }, .doneT)
  | .awaitingConnect x cid =>
      ({ w with ws := some cid, sent := w.sent ++ [(cid, x)] }, .doneT)
  | .doneT => (w, .doneT)

/-- Run a list of coroutines under an explicit schedule (a list of task
indices); this is the single cooperative event loop of the host system. -/
def runSchedule : WsWorld → List WsTask → List Nat → WsWorld × List WsTask
  | w, ts, [] => (w, ts)
  | w, ts, i :: rest =>
      let p := wsStep w (ts.getD i .doneT)
      runSchedule p.1 (ts.set i p.2) rest

/-- Issue one `update` call per value, stepping each coroutine once: every
call runs up to its first suspension point before any connect resolves. -/
def wsStartAll : WsWorld → List String → WsWorld × List WsTask
  | w, [] => (w, [])
  | w, x :: xs =>
      let p := wsStep w (.start x)
      let q := wsStartAll p.1 xs
      (q.1, p.2 :: q.2)

/-- Run one `update` call to completion before anything else happens
(sequential delivery): the start step, then the resume step. -/
def to_websocket.updateRun (w : WsWorld) (x : String) : WsWorld :=
  let p := wsStep w (.start x)
  (wsStep p.1 p.2).1

/-- Deliver a sequence of values sequentially, each `update` awaited to
completion before the next is issued. -/
def to_websocket.runSeq (w : WsWorld) : List String → WsWorld
  | [] => w
  | x :: xs => to_websocket.runSeq (to_websocket.updateRun w x) xs

/-- `to_websocket.destroy`:

    super().destroy()                 -- unregisters (set.remove)
    if self.ws is not None:
        sync(self.loop, self.ws.protocol.close)   -- blocking close, may fail
    self.ws = None

Returns the final registry, the final sink state, and the raised exception if
any.  A raise aborts the remaining statements but keeps the side effects
already performed, as in Python. `closeFails` tells whether the blocking
close raises. -/
def to_websocket.destroyT (reg : Finset Nat) (sid : Nat) (w : WsWorld)
    (closeFails : Bool) : Finset Nat × WsWorld × Option String :=
  if sid ∈ reg then
    let reg' := reg.erase sid
    match w.ws with
    | none => (reg', { w with ws := none }, none)
    | some _ =>
        if closeFails then (reg', w, some "close failed")
        else (reg', { w with ws := none }, none)
  else (reg, w, some "KeyError")

/-! ## `to_mqtt` (BrokerPublishSink) -/

/-- Constructor state of `to_mqtt`: broker host/port, topic, keepalive and
extra connect kwargs, stored by `__init__`. -/
structure MqttSink where
  host : String
  port : Nat
  topic : String
  keepalive : Nat
  c_kw : List (String × String)
  deriving DecidableEq

/-- One recorded `client.connect(host, port, keepalive, **c_kw)` call. -/
structure ConnectCall where
  clientId : Nat
  host : String
  port : Nat
  keepalive : Nat
  c_kw : List (String × String)
  deriving DecidableEq

/-- One recorded `client.publish(topic, x)` call. -/
structure PublishCall where
  clientId : Nat
  topic : String
  payload : String
  deriving DecidableEq

/-- World of a `to_mqtt` sink: the `self.client` attribute (client ids are
allocated from `nextClientId`), every `client.connect` call with its
arguments, and every `client.publish` call. -/
structure MqttWorld where
  client : Option Nat
  nextClientId : Nat
  connectCalls : List ConnectCall
  publishCalls : List PublishCall
  deriving DecidableEq

/-- `to_mqtt.update`: when `self.client is None`, construct `mqtt.Client()`
and run `self.client.connect(self.host, self.port, self.keepalive,
**self.c_kw)` synchronously, in the same invocation; then
`self.client.publish(self.topic, x)`.  The publish's return value (`_rc`,
carrying the broker-level delivery status) is discarded and the method
returns `None`: no pending-completion handle is ever produced. -/
def to_mqtt.update (s : MqttSink) (w : MqttWorld) (x : String) (_rc : Nat) :
    MqttWorld × Option Nat :=
  match w.client with
  | none =>
      let cid := w.nextClientId
      ({ client := some cid
         nextClientId := cid + 1
         connectCalls := w.connectCalls ++ [⟨cid, s.host, s.port, s.keepalive, s.c_kw⟩]
         publishCalls := w.publishCalls ++ [⟨cid, s.topic, x⟩] }, none)
  | some cid =>
      ({ w with publishCalls := w.publishCalls ++ [⟨cid, s.topic, x⟩] }, none)

/-- `to_mqtt.destroy`:

    self.client.disconnect()   -- AttributeError when self.client is None
    self.client = None
    super().destroy()          -- unregisters (set.remove)

A raise aborts the remaining statements but keeps the side effects already
performed.  `discFails` tells whether `disconnect()` itself raises. -/
def to_mqtt.destroyT (reg : Finset Nat) (sid : Nat) (w : MqttWorld)
    (discFails : Bool) : Finset Nat × MqttWorld × Option String :=
  match w.client with
  | none => (reg, w, some "AttributeError")
  | some _ =>
      if discFails then (reg, w, some "disconnect failed")
      else
        let w' := { w with client := none }
        if sid ∈ reg then (reg.erase sid, w', none)
        else (reg, w', some "KeyError")

/-! ## Spec-side definition for the TextFileSink contents claim -/

/-- Spec-side expected file contents: `v1 ++ T ++ v2 ++ T ++ ... ++ vn ++ T`,
in delivery order. -/
def terminatedConcat (T : String) : List String → String
  | [] => ""
  | v :: vs => v ++ T ++ terminatedConcat T vs

/-! ## Theorems -/

/-- C2: for every value `x` delivered to a `sink` (FunctionSink), `update`
invokes the wrapped function exactly once, with `x` as the leading positional
argument followed by the fixed positional arguments and with the fixed
keyword arguments applied; over a sequence of deliveries the function is
invoked once per value, in delivery order.  An awaitable result is returned
as-is as the pending-completion handle; otherwise the empty result is
returned. -/
theorem sink_update_invokes_once {α : Type u} {β : Type v}
    (func : α → List α → List (String × α) → PyResult β)
    (args : List α) (kwargs : List (String × α)) (x : α)
    (trace : List (FuncCall α)) (xs : List α) :
    (sink.update func args kwargs x trace).2 = trace ++ [⟨x, args, kwargs⟩] ∧
    (sink.update func args kwargs x trace).1 =
      (match func x args kwargs with
       | .awaitable h => .handle h
       | .value _ => .empty) ∧
    sink.updateSeq func args kwargs xs trace =
      trace ++ xs.map (fun v => ⟨v, args, kwargs⟩) := by
  refine ⟨?_, ?_, ?_⟩
  · cases hf : func x args kwargs <;> simp [sink.update, hf]
  · cases hf : func x args kwargs <;> simp [sink.update, hf]
  · induction xs generalizing trace with
    | nil => simp [sink.updateSeq]
    | cons y ys ih =>
        cases hf : func y args kwargs <;>
          simp [sink.updateSeq, sink.update, hf, ih]

/-- Helper for C3: delivering a sequence appends each value followed by the
terminator to the handle's buffer, and leaves the terminator unchanged. -/
theorem textfile_updateSeq_fp (s : TextFileSink) (vs : List String) :
    (sink_to_textfile.updateSeq s vs)._fp = s._fp ++ terminatedConcat s._end vs ∧
    (sink_to_textfile.updateSeq s vs)._end = s._end := by
  induction vs generalizing s with
  | nil => simp [sink_to_textfile.updateSeq, terminatedConcat]
  | cons y ys ih =>
      rcases ih (sink_to_textfile.update s y) with ⟨h1, h2⟩
      constructor
      · simp only [sink_to_textfile.updateSeq, h1]
        simp [sink_to_textfile.update, terminatedConcat, String.append_assoc]
      · simp only [sink_to_textfile.updateSeq, h2]
        rfl

/-- C3: for a TextFileSink delivering string values `v1 .. vn` with
terminator `T`, the handle's contents afterwards are what the open left in
the handle followed by `v1 ++ T ++ ... ++ vn ++ T` exactly, in delivery
order; the terminator defaults to newline, the open mode defaults to append
(`"a"`, preserving a path's existing contents), a string path is opened
eagerly at construction, and a pre-opened handle is used as given.  In
particular a path whose file starts empty afterwards holds exactly the
terminated concatenation. -/
theorem sink_to_textfile_contents (vs : List String)
    (existing path buf T m : String) :
    (sink_to_textfile.updateSeq (sink_to_textfile.init "" (.str path)) vs)._fp =
      terminatedConcat "\n" vs ∧
    (sink_to_textfile.init existing (.str path))._end = "\n" ∧
    (sink_to_textfile.init existing (.str path))._fp = existing ∧
    (sink_to_textfile.init existing (.fileLike buf) T m)._fp = buf ∧
    (sink_to_textfile.updateSeq (sink_to_textfile.init existing (.fileLike buf) T) vs)._fp =
      buf ++ terminatedConcat T vs := by
  refine ⟨?_, rfl, ?_, rfl, ?_⟩
  · have h := (textfile_updateSeq_fp (sink_to_textfile.init "" (.str path)) vs).1
    simpa [sink_to_textfile.init, pyOpen] using h
  · simp [sink_to_textfile.init, pyOpen]
  · have h := (textfile_updateSeq_fp
      (sink_to_textfile.init existing (.fileLike buf) T) vs).1
    simpa [sink_to_textfile.init] using h

/-- C4: a sink is added to `_global_sinks` when construction completes, is a
member exactly while constructed-and-not-destroyed, and destroy removes
exactly that registration, restoring the registry; membership of every other
sink is untouched, so registration and removal are the only registry
mutations of the lifecycle. -/
theorem sink_registry_lifecycle (reg : Finset Nat) (s : Nat) (h : s ∉ reg) :
    s ∈ Sink.initRegistry reg s ∧
    Sink.destroyRegistry (Sink.initRegistry reg s) s = .ok reg ∧
    (∀ t, t ≠ s → (t ∈ Sink.initRegistry reg s ↔ t ∈ reg)) := by
  refine ⟨Finset.mem_insert_self s reg, ?_, ?_⟩
  · simp [Sink.destroyRegistry, pySetRemove, Sink.initRegistry, pySetAdd,
      Finset.erase_insert h]
  · intro t ht
    simp [Sink.initRegistry, pySetAdd, Finset.mem_insert, ht]

/-- Witness for C4 at the concrete registry `∅` and sink `0`. -/
theorem sink_registry_lifecycle_witness :
    0 ∈ Sink.initRegistry ∅ 0 ∧
    Sink.destroyRegistry (Sink.initRegistry ∅ 0) 0 = .ok ∅ ∧
    (∀ t, t ≠ 0 → (t ∈ Sink.initRegistry ∅ 0 ↔ t ∈ (∅ : Finset Nat))) :=
  sink_registry_lifecycle ∅ 0 (Finset.not_mem_empty 0)

/-- C8 counterexample: unregistering a sink that is absent from the registry
is not a tolerated no-op — `Sink.destroy` runs `set.remove`, which raises
`KeyError` on an absent element. -/
theorem unregister_absent_raises_cex :
    Sink.destroyRegistry ∅ 0 = .error "KeyError" := by
  simp [Sink.destroyRegistry, pySetRemove]

/-- C8 amended: unregistering a sink that is absent from the registry raises
`KeyError` (Python `set.remove`); redundant unregister calls are not
tolerated, so a second `destroy` of the same sink fails. -/
theorem unregister_absent_raises (reg : Finset Nat) (s : Nat) (h : s ∉ reg) :
    Sink.destroyRegistry reg s = .error "KeyError" := by
  simp [Sink.destroyRegistry, pySetRemove, h]

/-- Witness for the amended C8 at the concrete registry `{1}` and sink `0`. -/
theorem unregister_absent_raises_witness :
    Sink.destroyRegistry {1} 0 = .error "KeyError" :=
  unregister_absent_raises {1} 0 (by decide)

/-- C9: at `sink` construction, keyword arguments are split by inspecting the
recognized option names (the parameters of the node constructor's
signature): a keyword is routed to the node constructor iff its name is in
the signature and is bound as a call argument to the wrapped function iff it
is not; the two parts together are a permutation of the original keywords. -/
theorem sink_kwargs_split_by_signature {α : Type u} (sig : List String)
    (kwargs : List (String × α)) (kv : String × α) :
    (kv ∈ (sink.splitKwargs sig kwargs).1 ↔ kv ∈ kwargs ∧ kv.1 ∈ sig) ∧
    (kv ∈ (sink.splitKwargs sig kwargs).2 ↔ kv ∈ kwargs ∧ kv.1 ∉ sig) ∧
    ((sink.splitKwargs sig kwargs).1 ++ (sink.splitKwargs sig kwargs).2).Perm
      kwargs := by
  refine ⟨?_, ?_, ?_⟩
  · simp [sink.splitKwargs, List.mem_filter]
  · simp [sink.splitKwargs, List.mem_filter]
  · have h := List.filter_append_perm
      (fun kv : String × α => decide (kv.1 ∈ sig)) kwargs
    simpa [sink.splitKwargs, decide_not] using h

/-- Witness for C9 on a concrete signature and keyword list. -/
theorem sink_kwargs_split_by_signature_witness :
    (("loop", 1) ∈ (sink.splitKwargs ["loop"] [("loop", 1), ("scale", 2)]).1) ∧
    (("scale", 2) ∈ (sink.splitKwargs ["loop"] [("loop", 1), ("scale", 2)]).2) :=
  ⟨(sink_kwargs_split_by_signature ["loop"] [("loop", 1), ("scale", 2)]
      ("loop", 1)).1.mpr (by simp),
   (sink_kwargs_split_by_signature ["loop"] [("loop", 1), ("scale", 2)]
      ("scale", 2)).2.1.mpr (by simp)⟩

/-- C7: for every value delivered to `to_mqtt`, the first update constructs
the broker client and connects synchronously in the same invocation; every
update publishes the value to the configured topic; and `update` never
returns a pending-completion handle (Python `None`), independently of the
broker's publish return code — broker-level publish failures are never
surfaced through a delivery handle. -/
theorem mqtt_update_publishes_without_handle (s : MqttSink) (w : MqttWorld)
    (x : String) (rc rcB : Nat) :
    (to_mqtt.update s w x rc).2 = none ∧
    to_mqtt.update s w x rc = to_mqtt.update s w x rcB ∧
    (w.client = none →
      (to_mqtt.update s w x rc).1.client = some w.nextClientId ∧
      (to_mqtt.update s w x rc).1.connectCalls =
        w.connectCalls ++ [⟨w.nextClientId, s.host, s.port, s.keepalive, s.c_kw⟩] ∧
      (to_mqtt.update s w x rc).1.publishCalls =
        w.publishCalls ++ [⟨w.nextClientId, s.topic, x⟩]) ∧
    (∀ c, w.client = some c →
      (to_mqtt.update s w x rc).1 =
        { w with publishCalls := w.publishCalls ++ [⟨c, s.topic, x⟩] }) := by
  refine ⟨?_, rfl, ?_, ?_⟩
  · cases hc : w.client <;> simp [to_mqtt.update, hc]
  · intro hc
    simp [to_mqtt.update, hc]
  · intro c hc
    simp [to_mqtt.update, hc]

/-- Witness for C7 on a concrete first delivery. -/
theorem mqtt_update_publishes_without_handle_witness :
    (to_mqtt.update ⟨"h", 1883, "t", 60, []⟩ ⟨none, 0, [], []⟩ "m" 0).2 = none ∧
    (to_mqtt.update ⟨"h", 1883, "t", 60, []⟩ ⟨none, 0, [], []⟩ "m" 0).1.connectCalls =
      [⟨0, "h", 1883, 60, []⟩] ∧
    (to_mqtt.update ⟨"h", 1883, "t", 60, []⟩ ⟨none, 0, [], []⟩ "m" 0).1.publishCalls =
      [⟨0, "t", "m"⟩] := by
  obtain ⟨h1, _, h3, _⟩ :=
    mqtt_update_publishes_without_handle ⟨"h", 1883, "t", 60, []⟩
      ⟨none, 0, [], []⟩ "m" 0 1
  exact ⟨h1, by simpa using (h3 rfl).2.1, by simpa using (h3 rfl).2.2⟩

/-- C5 counterexample: `to_mqtt.destroy` on a sink whose broker client was
never created (no element was ever delivered, so `self.client is None`)
raises `AttributeError` from the unguarded `self.client.disconnect()` — it is
not raise-free, and the raise happens before the unregistration, which never
runs. -/
theorem mqtt_destroy_unopened_raises_cex :
    (to_mqtt.destroyT {0} 0 ⟨none, 0, [], []⟩ false).2.2 = some "AttributeError" ∧
    (to_mqtt.destroyT {0} 0 ⟨none, 0, [], []⟩ false).1 = {0} :=
  ⟨rfl, rfl⟩

/-- C5 amended: for `to_websocket`, destroy on an instance whose connection
was never opened is raise-free and a no-op beyond unregistering; but for
`to_mqtt`, destroy on an instance whose client was never created raises
`AttributeError` (unguarded `self.client.disconnect()`) and does not even
unregister. -/
theorem destroy_unopened_resource (reg : Finset Nat) (sid : Nat)
    (w : WsWorld) (mw : MqttWorld)
    (hreg : sid ∈ reg) (hws : w.ws = none) (hmc : mw.client = none) :
    to_websocket.destroyT reg sid w false = (reg.erase sid, w, none) ∧
    to_mqtt.destroyT reg sid mw false = (reg, mw, some "AttributeError") := by
  constructor
  · obtain ⟨ows, ca, st⟩ := w
    cases hws
    simp [to_websocket.destroyT, hreg]
  · simp [to_mqtt.destroyT, hmc]

/-- Witness for the amended C5 on concrete never-opened sinks. -/
theorem destroy_unopened_resource_witness :
    to_websocket.destroyT {0} 0 ⟨none, 0, []⟩ false =
      (({0} : Finset Nat).erase 0, ⟨none, 0, []⟩, none) ∧
    to_mqtt.destroyT {0} 0 ⟨none, 0, [], []⟩ false =
      ({0}, ⟨none, 0, [], []⟩, some "AttributeError") :=
  destroy_unopened_resource {0} 0 ⟨none, 0, []⟩ ⟨none, 0, [], []⟩
    (by decide) rfl rfl

/-- C10 counterexample: for `to_mqtt`, `disconnect()` runs before
`super().destroy()`; when the disconnect raises, destroy propagates the
failure and the sink is still registered afterwards. -/
theorem mqtt_close_failure_blocks_unregister_cex :
    (to_mqtt.destroyT {0} 0 ⟨some 0, 1, [⟨0, "h", 1883, 60, []⟩], []⟩ true).2.2 =
      some "disconnect failed" ∧
    0 ∈ (to_mqtt.destroyT {0} 0 ⟨some 0, 1, [⟨0, "h", 1883, 60, []⟩], []⟩ true).1 :=
  ⟨rfl, by decide⟩

/-- C10 amended: `to_websocket.destroy` unregisters before closing, so a
failure of the blocking close does not prevent unregistration; but
`to_mqtt.destroy` disconnects before unregistering, so a disconnect failure
propagates and leaves the sink registered. -/
theorem destroy_close_failure_unregister (reg : Finset Nat) (sid : Nat)
    (w : WsWorld) (mw : MqttWorld) (cw c : Nat)
    (hreg : sid ∈ reg) (hws : w.ws = some cw) (hmc : mw.client = some c) :
    sid ∉ (to_websocket.destroyT reg sid w true).1 ∧
    (to_websocket.destroyT reg sid w true).2.2 = some "close failed" ∧
    sid ∈ (to_mqtt.destroyT reg sid mw true).1 ∧
    (to_mqtt.destroyT reg sid mw true).2.2 = some "disconnect failed" := by
  refine ⟨?_, ?_, ?_, ?_⟩
  · simp [to_websocket.destroyT, hreg, hws]
  · simp [to_websocket.destroyT, hreg, hws]
  · simp [to_mqtt.destroyT, hmc, hreg]
  · simp [to_mqtt.destroyT, hmc]

/-- Witness for the amended C10 on concrete opened sinks with failing
close/disconnect. -/
theorem destroy_close_failure_unregister_witness :
    0 ∉ (to_websocket.destroyT {0} 0 ⟨some 0, 1, []⟩ true).1 ∧
    (to_websocket.destroyT {0} 0 ⟨some 0, 1, []⟩ true).2.2 = some "close failed" ∧
    0 ∈ (to_mqtt.destroyT {0} 0 ⟨some 0, 1, [], []⟩ true).1 ∧
    (to_mqtt.destroyT {0} 0 ⟨some 0, 1, [], []⟩ true).2.2 = some "disconnect failed" :=
  destroy_close_failure_unregister {0} 0 ⟨some 0, 1, []⟩ ⟨some 0, 1, [], []⟩ 0 0
    (by decide) rfl rfl

/-- C1 counterexample: construct a fresh `to_websocket` sink, deliver `"a"`
(first connect), run `destroy` to completion (it succeeds and clears
`self.ws`), then deliver `"b"`: the update does not fail with a
channel-closed error — it makes a second connect attempt on the same
instance and sends `"b"` on the newly created connection. -/
theorem ws_update_after_destroy_reconnects_cex :
    (to_websocket.destroyT {0} 0 (to_websocket.updateRun ⟨none, 0, []⟩ "a") false).2.2 =
      none ∧
    to_websocket.updateRun
      (to_websocket.destroyT {0} 0 (to_websocket.updateRun ⟨none, 0, []⟩ "a") false).2.1
      "b" = ⟨some 1, 2, [(0, "a"), (1, "b")]⟩ := by
  constructor
  · decide
  · decide

/-- C1 amended: after `destroy` completes, the resource attribute
(`self.ws` / `self.client`) is `None` again, so a further `update` does not
fail: the lazy-connect test sees `None` and recreates the connection on the
same instance — a fresh connect attempt, with the value then delivered on
the new connection.  Only a channel that closed externally while `self.ws`
was still set would make further sends fail. -/
theorem update_after_destroy_recreates_connection (reg : Finset Nat)
    (sid : Nat) (w : WsWorld) (mw : MqttWorld) (x y : String) (s : MqttSink)
    (rc : Nat) (c : Nat) (hreg : sid ∈ reg) (hmc : mw.client = some c) :
    (to_websocket.destroyT reg sid w false).2.2 = none ∧
    (to_websocket.destroyT reg sid w false).2.1.ws = none ∧
    (∀ w2 : WsWorld, w2.ws = none →
      (to_websocket.updateRun w2 x).connectAttempts = w2.connectAttempts + 1 ∧
      (to_websocket.updateRun w2 x).ws = some w2.connectAttempts ∧
      (to_websocket.updateRun w2 x).sent = w2.sent ++ [(w2.connectAttempts, x)]) ∧
    (to_mqtt.destroyT reg sid mw false).2.2 = none ∧
    (to_mqtt.destroyT reg sid mw false).2.1.client = none ∧
    (∀ mw2 : MqttWorld, mw2.client = none →
      (to_mqtt.update s mw2 y rc).1.client = some mw2.nextClientId ∧
      (to_mqtt.update s mw2 y rc).1.connectCalls =
        mw2.connectCalls ++ [⟨mw2.nextClientId, s.host, s.port, s.keepalive, s.c_kw⟩] ∧
      (to_mqtt.update s mw2 y rc).1.publishCalls =
        mw2.publishCalls ++ [⟨mw2.nextClientId, s.topic, y⟩]) := by
  refine ⟨?_, ?_, ?_, ?_, ?_, ?_⟩
  · rcases hw : w.ws with _ | cw <;> simp [to_websocket.destroyT, hreg, hw]
  · rcases hw : w.ws with _ | cw <;> simp [to_websocket.destroyT, hreg, hw]
  · intro w2 h2
    simp [to_websocket.updateRun, wsStep, h2]
  · simp [to_mqtt.destroyT, hmc, hreg]
  · simp [to_mqtt.destroyT, hmc, hreg]
  · intro mw2 h2
    simp [to_mqtt.update, h2]

/-- Witness for the amended C1 on concrete post-destroy states. -/
theorem update_after_destroy_recreates_connection_witness :
    (to_websocket.destroyT {0} 0 ⟨some 0, 1, [(0, "a")]⟩ false).2.2 = none ∧
    (to_websocket.updateRun ⟨none, 1, [(0, "a")]⟩ "b").connectAttempts = 1 + 1 ∧
    (to_mqtt.update ⟨"h", 1883, "t", 60, []⟩ ⟨none, 1, [], []⟩ "m" 0).1.client =
      some 1 := by
  obtain ⟨h1, _, h3, _, _, h6⟩ :=
    update_after_destroy_recreates_connection {0} 0 ⟨some 0, 1, [(0, "a")]⟩
      ⟨some 0, 1, [], []⟩ "b" "m" ⟨"h", 1883, "t", 60, []⟩ 0 0 (by decide) rfl
  exact ⟨h1, (h3 ⟨none, 1, [(0, "a")]⟩ rfl).1, (h6 ⟨none, 1, [], []⟩ rfl).1⟩

/-- C6 counterexample: two `update` calls issued before the first connect
resolves (schedule: both coroutines reach their `await websockets.connect`
suspension, then each resumes) make two connect attempts, not one: there is
no in-flight connecting guard, and the second connection overwrites the
first in `self.ws`. -/
theorem ws_double_connect_cex :
    (runSchedule ⟨none, 0, []⟩ [.start "a", .start "b"] [0, 1, 0, 1]).1 =
      ⟨some 1, 2, [(0, "a"), (1, "b")]⟩ := by
  decide

/-- Helper for C6: once `self.ws` is set, sequential deliveries send on the
existing connection and never attempt another connect. -/
theorem ws_runSeq_connected (c : Nat) (w : WsWorld) (ys : List String)
    (h : w.ws = some c) :
    (to_websocket.runSeq w ys).connectAttempts = w.connectAttempts ∧
    (to_websocket.runSeq w ys).ws = some c := by
  induction ys generalizing w with
  | nil => simp [to_websocket.runSeq, h]
  | cons y ys ih =>
      have hstep : to_websocket.updateRun w y =
          { w with sent := w.sent ++ [(c, y)] } := by
        simp [to_websocket.updateRun, wsStep, h]
      simp only [to_websocket.runSeq, hstep]
      exact ih { w with sent := w.sent ++ [(c, y)] } h

/-- C6 amended: there is no in-flight connecting guard: every `update` call
that reaches the `self.ws is None` test before the first connect resolves
starts its own connect, so N calls issued before the first connect resolves
make N connect attempts; exactly one connect attempt results only when each
update runs to completion before the next is issued. -/
theorem ws_connect_attempt_per_pending_update (w : WsWorld) (xs : List String)
    (hws : w.ws = none) (hne : xs ≠ []) :
    (wsStartAll w xs).1.connectAttempts = w.connectAttempts + xs.length ∧
    (to_websocket.runSeq ⟨none, 0, []⟩ xs).connectAttempts = 1 := by
  constructor
  · clear hne
    induction xs generalizing w with
    | nil => simp [wsStartAll]
    | cons y ys ih =>
        have h1 : wsStep w (.start y) =
            ({ w with connectAttempts := w.connectAttempts + 1 },
             .awaitingConnect y w.connectAttempts) := by
          simp [wsStep, hws]
        simp only [wsStartAll, h1]
        rw [ih { w with connectAttempts := w.connectAttempts + 1 } hws]
        show w.connectAttempts + 1 + ys.length = w.connectAttempts + (ys.length + 1)
        omega
  · obtain ⟨x, xs', rfl⟩ := List.exists_cons_of_ne_nil hne
    have h0 : to_websocket.updateRun ⟨none, 0, []⟩ x = ⟨some 0, 1, [(0, x)]⟩ := by
      simp [to_websocket.updateRun, wsStep]
    simp only [to_websocket.runSeq, h0]
    exact (ws_runSeq_connected 0 ⟨some 0, 1, [(0, x)]⟩ xs' rfl).1

/-- Witness for the amended C6: three pending updates make three connect
attempts; three sequential updates make exactly one. -/
theorem ws_connect_attempt_per_pending_update_witness :
    (wsStartAll ⟨none, 0, []⟩ ["a", "b", "c"]).1.connectAttempts = 0 + 3 ∧
    (to_websocket.runSeq ⟨none, 0, []⟩ ["a", "b", "c"]).connectAttempts = 1 :=
  ws_connect_attempt_per_pending_update ⟨none, 0, []⟩ ["a", "b", "c"] rfl (by decide)
